import Mathlib

/-!
Shallow embedding of `statmach.py` (hlovatt/statmach): a small state-machine
engine in which states carry per-event action tables, a `Machine` (itself a
`State`) carries a default action table and the current state, and `fire`
resolves an event to an action `(new_state, new_value)`, running the
`__exit__` / `__enter__` context-manager hooks around a transition.

Modelling choices:
* Python objects are identified by a natural-number id; the heap is an
  environment `Env` mapping ids to state data.  Python `is` identity between
  state objects is equality of ids; the Python value `None` and a reference
  to state `i` are together modelled by `Option Nat` (`none` / `some i`).
* Output values are likewise modelled as `Option Nat` (`none` is Python
  `None`, the initial value of `new_value` in `fire`).
* A state's `__enter__` / `__exit__` may be overridden by a subclass
  (e.g. `LoggingState`, `SuppressAllExceptions` in `test_statmach.py`);
  `EnterBeh` / `ExitBeh` record what the override does: return a value, or
  raise.  The defaults of class `State` are `returnSelf` and `ret false`.
* Action tables are Python dicts with unique keys; they are embedded as
  association lists looked up by first match.  Looking up a missing key
  raises `KeyError`, which is the `Exc.keyError` failure below; calling a
  method on `None` raises `AttributeError` (`Exc.attributeError`).
* Each call of `fire`, of `Machine.__init__` and of `__exit__` returns the
  list of enter/exit hook invocations it performed (its trace), so that the
  hook-ordering facts of the specification can be stated.
-/

deriving instance DecidableEq for Except

namespace Statmach

/-- Exceptions that can arise in the embedded program: `KeyError` from a
dict lookup of a missing event, `AttributeError` from attribute access on
`None`, and arbitrary user exceptions raised by overridden hooks. -/
inductive Exc where
  | keyError
  | attributeError
  | userExc (n : Nat)
deriving DecidableEq, Repr

/-- One invocation of a lifecycle hook: `__enter__` of state `i`, or
`__exit__` of state `i` with the in-flight failure (if any). -/
inductive HookCall where
  | enter (i : Nat)
  | exit (i : Nat) (failure : Option Exc)
deriving DecidableEq, Repr

/-- What a state's (possibly overridden) `__enter__` does when called:
return `self` (the default of class `State`), return some other value
(possibly `None`), or raise. -/
inductive EnterBeh where
  | returnSelf
  | returnVal (v : Option Nat)
  | raiseExc (e : Exc)
deriving DecidableEq, Repr

/-- What a state's (possibly overridden) `__exit__` does when called:
return a boolean (class `State` returns `False`), or raise. -/
inductive ExitBeh where
  | ret (b : Bool)
  | raiseExc (e : Exc)
deriving DecidableEq, Repr

/-- Embedding of class `State` of `statmach.py`: the `ident` field, the
`actions` dict mapping an event to the action pair
`(new_state, new_value)`, and the behaviour of the object's `__enter__`
and `__exit__` (the latter split by whether a failure is in flight, which
is all the hook can observe of `exc_type / exc_value / traceback`).  The
field defaults are the defaults of class `State`: empty `actions`,
`__enter__` returning `self`, `__exit__` doing nothing and returning
`False`. -/
structure State where
  ident : Option Nat := none
  actions : List (Nat × (Option Nat × Option Nat)) := []
  enterBeh : EnterBeh := .returnSelf
  exitOnNone : ExitBeh := .ret false
  exitOnExc : ExitBeh := .ret false
deriving DecidableEq, Repr

/-- The heap: state id to state data.  Ids used by a machine are indices
into this list. -/
abbrev Env := List State

/-- Dereference a state id (ids out of range yield a default `State()`,
a situation no well-formed machine reaches). -/
def getS (env : Env) (i : Nat) : State := env.getD i {}

/-- Python dict lookup on the embedded `actions` table: first entry with
the given key, `none` when the key is absent (where the dict raises
`KeyError`). -/
def lookupA (t : List (Nat × (Option Nat × Option Nat))) (event : Nat) :
    Option (Option Nat × Option Nat) :=
  match t with
  | [] => none
  | (k, a) :: rest => if k = event then some a else lookupA rest event

/-- Call `__enter__` on state `i`: the trace records the invocation, the
result is the returned value or the raised exception. -/
def callEnter (env : Env) (i : Nat) : List HookCall × Except Exc (Option Nat) :=
  match (getS env i).enterBeh with
  | .returnSelf => ([.enter i], .ok (some i))
  | .returnVal v => ([.enter i], .ok v)
  | .raiseExc e => ([.enter i], .error e)

/-- Call `__exit__` on state `i` with the in-flight failure (if any): the
trace records the invocation, the result is the returned boolean or the
raised exception. -/
def callExit (env : Env) (i : Nat) (failure : Option Exc) :
    List HookCall × Except Exc Bool :=
  match failure with
  | none =>
    match (getS env i).exitOnNone with
    | .ret b => ([.exit i none], .ok b)
    | .raiseExc e => ([.exit i none], .error e)
  | some f =>
    match (getS env i).exitOnExc with
    | .ret b => ([.exit i (some f)], .ok b)
    | .raiseExc e => ([.exit i (some f)], .error e)

/-- Embedding of class `Machine` of `statmach.py`.  `Machine` inherits
from `State`, so it has the `ident` and `actions` fields (its `actions`
dict is the machine-wide default table); `state` is the current state set
by `__init__` and by `fire` (a Python value: `None` or a state
reference). -/
structure Machine where
  ident : Option Nat := none
  actions : List (Nat × (Option Nat × Option Nat)) := []
  state : Option Nat
deriving DecidableEq, Repr

/-- Embedding of `Machine.__init__`: checks `type(initial_state).__enter__`
and `__exit__` exist (an `AttributeError` when `initial_state` is `None`)
and then immediately runs `self.state = enter(initial_state)`.  Returns the
hook trace and either the constructed machine or the raised exception. -/
def Machine.init (env : Env) (initial : Option Nat) :
    List HookCall × Except Exc Machine :=
  match initial with
  | none => ([], .error .attributeError)
  | some i =>
    match callEnter env i with
    | (tr, .ok v) => (tr, .ok { state := v })
    | (tr, .error e) => (tr, .error e)

/-- Embedding of the machine's scoped exit (the `__exit__` run when its
`with` block ends).  `Machine` declares no `__exit__` of its own, so the
inherited `State.__exit__` runs: it touches no state, performs no hook
call on the current state, and returns `False`. -/
def Machine.close (_m : Machine) (_failure : Option Exc) :
    List HookCall × Bool :=
  ([], false)

/-- The action-resolution step of `fire` (its `try` body): look the event
up in the current state's `actions` dict first, falling back to the
machine's own `actions` dict; `none` is the `KeyError` case. -/
def resolve (env : Env) (m : Machine) (i : Nat) (event : Nat) :
    Option (Option Nat × Option Nat) :=
  match lookupA (getS env i).actions event with
  | some a => some a
  | none => lookupA m.actions event

/-- Result of a `fire` call: the heap (returned so that heap preservation
is statable), the machine after the call (`self`), the hook invocations
performed, and the returned value or raised exception. -/
structure FireRes where
  env : Env
  machine : Machine
  trace : List HookCall
  result : Except Exc (Option Nat)
deriving DecidableEq, Repr

/-- The tail of `fire` after an action `(ns, nv)` has been resolved (or
substituted by the exception handler): the `if new_state is not state:`
block followed by `return new_value`.  On a transition the current state's
`__exit__(None, None, None)` runs with its return value ignored (but a
raised exception propagates), then `type(new_state).__enter__` is looked
up (an `AttributeError` when `new_state` is `None`), then
`self.state = enter(new_state)` with no validation of the value `enter`
returned. -/
def fireGo (env : Env) (m : Machine) (i : Nat) (ns : Option Nat)
    (nv : Option Nat) : FireRes :=
  if ns = some i then
    ⟨env, m, [], .ok nv⟩
  else
    match callExit env i none with
    | (tr1, .error e) => ⟨env, m, tr1, .error e⟩
    | (tr1, .ok _) =>
      match ns with
      | none => ⟨env, m, tr1, .error .attributeError⟩
      | some j =>
        match callEnter env j with
        | (tr2, .error e) => ⟨env, m, tr1 ++ tr2, .error e⟩
        | (tr2, .ok v) => ⟨env, { m with state := v }, tr1 ++ tr2, .ok nv⟩

/-- Embedding of `Machine.fire`.  `state = self.state`; when it is `None`
the `state.actions` access raises `AttributeError` and the handler's
`state.__exit__` raises `AttributeError` again, which propagates with no
hook invoked.  Otherwise the action is resolved by `resolve`; on a
`KeyError` (event in neither dict) the handler calls
`state.__exit__(*sys.exc_info())`: a raised exception propagates, a true
result swallows the failure (continue in the current state with
`new_value` still `None`), a false result re-raises the `KeyError`.  A
resolved action is then processed by `fireGo`. -/
def Machine.fire (m : Machine) (env : Env) (event : Nat) : FireRes :=
  match m.state with
  | none => ⟨env, m, [], .error .attributeError⟩
  | some i =>
    match resolve env m i event with
    | some (ns, nv) => fireGo env m i ns nv
    | none =>
      match callExit env i (some .keyError) with
      | (tr, .error e) => ⟨env, m, tr, .error e⟩
      | (tr, .ok true) => ⟨env, m, tr, .ok none⟩
      | (tr, .ok false) => ⟨env, m, tr, .error .keyError⟩

/-- The statically-observable set of events the machine currently handles:
union of the machine's default action keys and the current state's action
keys (empty contribution when the current-state reference is absent). -/
def handledEvents (env : Env) (m : Machine) : Finset Nat :=
  (m.actions.map Prod.fst).toFinset ∪
    (match m.state with
     | none => ∅
     | some i => ((getS env i).actions.map Prod.fst).toFinset)

/-! Concrete machines used to instantiate and to refute the claims.  Each
`envCk` / `mCk` pair is a small heap and machine exercising one scenario of
the specification. -/

/-- Heap for the event-set scenario: state 0 maps event 0 to
`(state 1, 5)`; state 1 handles no events. -/
def envC1 : Env := [{ actions := [(0, (some 1, some 5))] }, {}]

/-- Machine for the event-set scenario, currently in state 0 with an empty
default table. -/
def mC1 : Machine := { state := some 0 }

/-- Heap with a single default state (used for the eager-entry scenario). -/
def envC2 : Env := [{}]

/-- Machine in state 0 (used for the eager-entry scenario). -/
def mC2 : Machine := { state := some 0 }

/-- Heap with a single default state: its exit returns `False` on a
failure, as class `State` does. -/
def envC3 : Env := [{}]

/-- Machine in state 0 with both tables empty, so any event is
unhandled. -/
def mC3 : Machine := { state := some 0 }

/-- Heap whose single state swallows in-flight failures (its exit returns
`True`), like `SuppressAllExceptions` in the tests. -/
def envC4 : Env := [{ exitOnExc := .ret true }]

/-- Machine in the swallowing state 0, both tables empty. -/
def mC4 : Machine := { state := some 0 }

/-- Machine in state 0 (used for the scoped-close scenario). -/
def mC5 : Machine := { state := some 0 }

/-- Heap where state 0 maps event 1 to `(state 1, 7)` and state 1 has an
enter override returning `None` (so the stored current state becomes
absent). -/
def envC6 : Env := [{ actions := [(1, (some 1, some 7))] }, { enterBeh := .returnVal none }]

/-- Machine in state 0 (used for the unvalidated-enter scenario). -/
def mC6 : Machine := { state := some 0 }

/-- Heap where state 0 maps event 2 to itself with output 3 (a
self-transition). -/
def envC7 : Env := [{ actions := [(2, (some 0, some 3))] }]

/-- Machine in state 0 (used for the self-transition scenario). -/
def mC7 : Machine := { state := some 0 }

/-- Heap where state 0 maps event 4 to `(state 0, 1)`. -/
def envC8 : Env := [{ actions := [(4, (some 0, some 1))] }]

/-- Machine in state 0 whose default table also maps event 4, to the
different output 2: the state entry must win. -/
def mC8 : Machine := { actions := [(4, (some 0, some 2))], state := some 0 }

/-- Heap where state 0 maps event 0 to `(state 1, 9)` but has an exit
override that raises; state 1 is a default state. -/
def envC10 : Env :=
  [{ actions := [(0, (some 1, some 9))], exitOnNone := .raiseExc (.userExc 3) }, {}]

/-- Machine in state 0 (used for the raising-exit scenario). -/
def mC10 : Machine := { state := some 0 }

/-! Helper lemmas about the hook calls and the pieces of `fire`. -/

theorem callEnter_self (env : Env) (j : Nat)
    (he : (getS env j).enterBeh = EnterBeh.returnSelf) :
    callEnter env j = ([HookCall.enter j], Except.ok (some j)) := by
  unfold callEnter
  rw [he]

theorem callEnter_val (env : Env) (j : Nat) (v : Option Nat)
    (he : (getS env j).enterBeh = EnterBeh.returnVal v) :
    callEnter env j = ([HookCall.enter j], Except.ok v) := by
  unfold callEnter
  rw [he]

theorem callExit_none_ret (env : Env) (i : Nat) (b : Bool)
    (hx : (getS env i).exitOnNone = ExitBeh.ret b) :
    callExit env i none = ([HookCall.exit i none], Except.ok b) := by
  unfold callExit
  rw [hx]

theorem callExit_none_raise (env : Env) (i : Nat) (e : Exc)
    (hx : (getS env i).exitOnNone = ExitBeh.raiseExc e) :
    callExit env i none = ([HookCall.exit i none], Except.error e) := by
  unfold callExit
  rw [hx]

theorem callExit_exc_ret (env : Env) (i : Nat) (f : Exc) (b : Bool)
    (hx : (getS env i).exitOnExc = ExitBeh.ret b) :
    callExit env i (some f) = ([HookCall.exit i (some f)], Except.ok b) := by
  unfold callExit
  rw [hx]

theorem fire_resolved (env : Env) (m : Machine) (event i : Nat)
    (ns nv : Option Nat) (hs : m.state = some i)
    (hr : resolve env m i event = some (ns, nv)) :
    m.fire env event = fireGo env m i ns nv := by
  unfold Machine.fire
  rw [hs]
  dsimp only
  rw [hr]

theorem fireGo_self (env : Env) (m : Machine) (i : Nat) (nv : Option Nat) :
    fireGo env m i (some i) nv = ⟨env, m, [], Except.ok nv⟩ := by
  unfold fireGo
  rw [if_pos rfl]

theorem fireGo_transition (env : Env) (m : Machine) (i j : Nat)
    (nv : Option Nat) (b : Bool) (v : Option Nat) (hij : j ≠ i)
    (hx : (getS env i).exitOnNone = ExitBeh.ret b)
    (he : callEnter env j = ([HookCall.enter j], Except.ok v)) :
    fireGo env m i (some j) nv =
      ⟨env, { m with state := v },
        [HookCall.exit i none, HookCall.enter j], Except.ok nv⟩ := by
  unfold fireGo
  rw [if_neg (by simpa using hij), callExit_none_ret env i b hx]
  dsimp only
  rw [he]
  rfl

theorem fireGo_exit_raises (env : Env) (m : Machine) (i : Nat)
    (ns nv : Option Nat) (e : Exc) (hns : ns ≠ some i)
    (hx : (getS env i).exitOnNone = ExitBeh.raiseExc e) :
    fireGo env m i ns nv = ⟨env, m, [HookCall.exit i none], Except.error e⟩ := by
  unfold fireGo
  rw [if_neg hns, callExit_none_raise env i e hx]

theorem fireGo_preserves (env : Env) (m : Machine) (i : Nat)
    (ns nv : Option Nat) :
    (fireGo env m i ns nv).env = env ∧
      (fireGo env m i ns nv).machine.actions = m.actions ∧
      (fireGo env m i ns nv).machine.ident = m.ident := by
  unfold fireGo
  split
  · exact ⟨rfl, rfl, rfl⟩
  · split
    · exact ⟨rfl, rfl, rfl⟩
    · split
      · exact ⟨rfl, rfl, rfl⟩
      · split
        · exact ⟨rfl, rfl, rfl⟩
        · exact ⟨rfl, rfl, rfl⟩

/-! The claims. -/

/-- C1 (amended): `fire` performs no handled-event-set consistency check.
On a transition the union of the machine's default action keys and the
current state's action keys may change, and `fire` still completes the
transition and returns the resolved output normally; no fatal invariant
failure exists in the code (the source only carries a TODO about warning
on such changes). -/
theorem fire_transition_despite_eventset_change (env : Env) (m : Machine)
    (event i j : Nat) (nv : Option Nat) (b : Bool)
    (hs : m.state = some i)
    (hr : resolve env m i event = some (some j, nv))
    (hij : j ≠ i)
    (hx : (getS env i).exitOnNone = ExitBeh.ret b)
    (he : (getS env j).enterBeh = EnterBeh.returnSelf)
    (hdiff : handledEvents env m ≠ handledEvents env { m with state := some j }) :
    m.fire env event =
      ⟨env, { m with state := some j },
        [HookCall.exit i none, HookCall.enter j], Except.ok nv⟩ := by
  rw [fire_resolved env m event i (some j) nv hs hr,
    fireGo_transition env m i j nv b (some j) hij hx (callEnter_self env j he)]

/-- C1 counterexample: at `mC1` the transition under event 0 changes the
handled event set (from the singleton 0 to the empty set), yet `fire`
returns output 5 normally instead of failing fatally as the claim
requires. -/
theorem fire_eventset_change_counterexample :
    handledEvents envC1 mC1 ≠
        handledEvents envC1 (Machine.fire mC1 envC1 0).machine ∧
      (Machine.fire mC1 envC1 0).result = Except.ok (some 5) := by
  decide

/-- C1 witness: the amended theorem applied at `mC1`, whose transition
changes the handled event set. -/
theorem fire_transition_despite_eventset_change_witness :
    Machine.fire mC1 envC1 0 =
      ⟨envC1, { mC1 with state := some 1 },
        [HookCall.exit 0 none, HookCall.enter 1], Except.ok (some 5)⟩ :=
  fire_transition_despite_eventset_change envC1 mC1 0 0 1 (some 5) false rfl
    (by decide) (by decide) rfl rfl (by decide)

/-- C2 (code bug): the initial state's enter hook is invoked eagerly at
construction, not lazily on the first `fire`: `Machine.init` records the
`enter 0` call, and the scoped close performs no hook call, so a machine
opened and closed without firing any event has entered (and never exited)
its initial state.  The repository's own test
`test_not_entering_initial_state_if_no_event` expects no such enter
call. -/
theorem machine_init_enters_initial_state_eagerly :
    Machine.init envC2 (some 0) = ([HookCall.enter 0], Except.ok mC2) ∧
      Machine.close mC2 none = ([], false) := by
  decide

/-- C3 (amended): when action resolution fails (the event is in neither
table, a KeyError) and the current state's exit, invoked with that
failure, returns false, `fire` re-raises the original failure to the
caller; the current-state reference is NOT cleared — the machine still
references the same current state. -/
theorem fire_unhandled_exit_false_reraises (env : Env) (m : Machine)
    (event i : Nat) (hs : m.state = some i)
    (hr : resolve env m i event = none)
    (hx : (getS env i).exitOnExc = ExitBeh.ret false) :
    m.fire env event =
        ⟨env, m, [HookCall.exit i (some Exc.keyError)],
          Except.error Exc.keyError⟩ ∧
      (m.fire env event).machine.state = some i := by
  have h : m.fire env event =
      ⟨env, m, [HookCall.exit i (some Exc.keyError)],
        Except.error Exc.keyError⟩ := by
    unfold Machine.fire
    rw [hs]
    dsimp only
    rw [hr]
    dsimp only
    rw [callExit_exc_ret env i Exc.keyError false hx]
  exact ⟨h, by rw [h]; exact hs⟩

/-- C3 counterexample: firing the unhandled event 9 at `mC3` re-raises
the KeyError, yet the current-state reference is not cleared: it still
holds state 0. -/
theorem fire_unhandled_state_not_cleared_counterexample :
    (Machine.fire mC3 envC3 9).result = Except.error Exc.keyError ∧
      (Machine.fire mC3 envC3 9).machine.state ≠ none := by
  decide

/-- C3 witness: the amended theorem applied at `mC3` with the unhandled
event 9. -/
theorem fire_unhandled_exit_false_reraises_witness :
    Machine.fire mC3 envC3 9 =
        ⟨envC3, mC3, [HookCall.exit 0 (some Exc.keyError)],
          Except.error Exc.keyError⟩ ∧
      (Machine.fire mC3 envC3 9).machine.state = some 0 :=
  fire_unhandled_exit_false_reraises envC3 mC3 9 0 rfl (by decide) rfl

/-- C4: when action resolution fails and the current state's exit,
invoked with that failure, returns true, `fire` swallows the failure: it
returns the default empty output (`None`), the machine (in particular its
current state) is unchanged, the only hook invocation is that single exit
call, and no failure reaches the caller. -/
theorem fire_unhandled_exit_true_swallows (env : Env) (m : Machine)
    (event i : Nat) (hs : m.state = some i)
    (hr : resolve env m i event = none)
    (hx : (getS env i).exitOnExc = ExitBeh.ret true) :
    m.fire env event =
      ⟨env, m, [HookCall.exit i (some Exc.keyError)], Except.ok none⟩ := by
  unfold Machine.fire
  rw [hs]
  dsimp only
  rw [hr]
  dsimp only
  rw [callExit_exc_ret env i Exc.keyError true hx]

/-- C4 witness: the theorem applied at the failure-swallowing machine
`mC4` with the unhandled event 9. -/
theorem fire_unhandled_exit_true_swallows_witness :
    Machine.fire mC4 envC4 9 =
      ⟨envC4, mC4, [HookCall.exit 0 (some Exc.keyError)], Except.ok none⟩ :=
  fire_unhandled_exit_true_swallows envC4 mC4 9 0 rfl (by decide) rfl

/-- C5 (code bug): the scoped close of a machine never calls exit on the
current state, even when the current-state reference is present and the
state was entered (which under this code happens already at
construction): `Machine` declares no scoped exit of its own and inherits
the do-nothing `State.__exit__`.  Only the second half of the claim (the
machine's own exit reports "not handled", i.e. false) holds.  The
repository's own test `test_nesting_order` expects the current state to
be exited before the machine's own exit. -/
theorem machine_close_skips_state_exit :
    Machine.close mC5 none = ([], false) ∧ mC5.state = some 0 := by
  decide

/-- C6 (amended): on a transition the departing state's exit runs with no
failure before the next state's enter, the boolean that exit returns is
ignored, and the machine's new current state is whatever enter returned —
stored without validation, so an absent (`None`) return is accepted
silently instead of being a fatal error. -/
theorem fire_transition_order_unvalidated_enter (env : Env) (m : Machine)
    (event i j : Nat) (nv v : Option Nat) (b : Bool)
    (hs : m.state = some i)
    (hr : resolve env m i event = some (some j, nv))
    (hij : j ≠ i)
    (hx : (getS env i).exitOnNone = ExitBeh.ret b)
    (he : (getS env j).enterBeh = EnterBeh.returnVal v) :
    m.fire env event =
      ⟨env, { m with state := v },
        [HookCall.exit i none, HookCall.enter j], Except.ok nv⟩ := by
  rw [fire_resolved env m event i (some j) nv hs hr,
    fireGo_transition env m i j nv b v hij hx (callEnter_val env j v he)]

/-- C6 counterexample: state 1's enter returns `None`; after the
transition `fire` returns output 7 normally and the stored current state
is absent — no fatal error occurred, refuting the validation part of the
claim. -/
theorem fire_enter_none_accepted_counterexample :
    (Machine.fire mC6 envC6 1).result = Except.ok (some 7) ∧
      (Machine.fire mC6 envC6 1).machine.state = none := by
  decide

/-- C6 witness: the amended theorem applied at `mC6`, transitioning to
the state whose enter returns `None`. -/
theorem fire_transition_order_unvalidated_enter_witness :
    Machine.fire mC6 envC6 1 =
      ⟨envC6, { mC6 with state := none },
        [HookCall.exit 0 none, HookCall.enter 1], Except.ok (some 7)⟩ :=
  fire_transition_order_unvalidated_enter envC6 mC6 1 0 1 (some 7) none false
    rfl (by decide) (by decide) rfl rfl

/-- C7: a `fire` whose resolved action's next state is the same object as
the current state invokes no enter or exit hook, leaves the machine
unchanged, and returns the resolved output unchanged. -/
theorem fire_self_transition_no_hooks (env : Env) (m : Machine)
    (event i : Nat) (nv : Option Nat) (hs : m.state = some i)
    (hr : resolve env m i event = some (some i, nv)) :
    m.fire env event = ⟨env, m, [], Except.ok nv⟩ := by
  rw [fire_resolved env m event i (some i) nv hs hr, fireGo_self]

/-- C7 witness: the theorem applied at `mC7`, whose event 2 maps back to
the current state with output 3. -/
theorem fire_self_transition_no_hooks_witness :
    Machine.fire mC7 envC7 2 = ⟨envC7, mC7, [], Except.ok (some 3)⟩ :=
  fire_self_transition_no_hooks envC7 mC7 2 0 (some 3) rfl (by decide)

/-- C8: an event present in both the current state's action table and the
machine's default table resolves to the state's entry (state entries take
precedence over machine defaults), and `fire` proceeds with that
action. -/
theorem fire_state_precedence (env : Env) (m : Machine) (event i : Nat)
    (a a2 : Option Nat × Option Nat) (hs : m.state = some i)
    (h1 : lookupA (getS env i).actions event = some a)
    (h2 : lookupA m.actions event = some a2) :
    resolve env m i event = some a ∧
      m.fire env event = fireGo env m i a.1 a.2 := by
  have hres : resolve env m i event = some a := by
    unfold resolve
    rw [h1]
  exact ⟨hres, fire_resolved env m event i a.1 a.2 hs (by rw [hres])⟩

/-- C8 witness: the theorem applied at `mC8`, where event 4 is in both
tables with different outputs and the state's entry (output 1) is the one
used. -/
theorem fire_state_precedence_witness :
    resolve envC8 mC8 0 4 = some (some 0, some 1) ∧
      Machine.fire mC8 envC8 4 = fireGo envC8 mC8 0 (some 0) (some 1) :=
  fire_state_precedence envC8 mC8 4 0 (some 0, some 1) (some 0, some 2)
    rfl rfl rfl

/-- C9: `fire` never mutates the heap of states or any action table: the
returned heap is the argument heap unchanged, and the returned machine
carries the same default action table (and ident) as before — only the
current-state field can change. -/
theorem fire_preserves_tables (env : Env) (m : Machine) (event : Nat) :
    (m.fire env event).env = env ∧
      (m.fire env event).machine.actions = m.actions ∧
      (m.fire env event).machine.ident = m.ident := by
  rcases hst : m.state with _ | i
  · unfold Machine.fire
    rw [hst]
    exact ⟨rfl, rfl, rfl⟩
  · rcases hres : resolve env m i event with _ | ⟨ns, nv⟩
    · rcases hcx : callExit env i (some Exc.keyError) with ⟨tr, r⟩
      unfold Machine.fire
      rw [hst]
      dsimp only
      rw [hres]
      dsimp only
      rw [hcx]
      rcases r with e | b
      · exact ⟨rfl, rfl, rfl⟩
      · rcases b with _ | _
        · exact ⟨rfl, rfl, rfl⟩
        · exact ⟨rfl, rfl, rfl⟩
    · unfold Machine.fire
      rw [hst]
      dsimp only
      rw [hres]
      exact fireGo_preserves env m i ns nv

/-- C10: if the departing state's exit, called with no failure during a
transition, itself raises, the exception propagates from `fire`, the next
state's enter is never invoked (the trace holds only the exit call), and
the machine still references the departing, pre-transition state. -/
theorem fire_exit_raise_aborts_transition (env : Env) (m : Machine)
    (event i : Nat) (ns nv : Option Nat) (e : Exc)
    (hs : m.state = some i)
    (hr : resolve env m i event = some (ns, nv))
    (hns : ns ≠ some i)
    (hx : (getS env i).exitOnNone = ExitBeh.raiseExc e) :
    m.fire env event = ⟨env, m, [HookCall.exit i none], Except.error e⟩ ∧
      (m.fire env event).machine.state = some i := by
  rw [fire_resolved env m event i ns nv hs hr,
    fireGo_exit_raises env m i ns nv e hns hx]
  exact ⟨rfl, hs⟩

/-- C10 witness: the theorem applied at `mC10`, whose state 0 exit raises
a user exception while transitioning to state 1. -/
theorem fire_exit_raise_aborts_transition_witness :
    Machine.fire mC10 envC10 0 =
        ⟨envC10, mC10, [HookCall.exit 0 none],
          Except.error (Exc.userExc 3)⟩ ∧
      (Machine.fire mC10 envC10 0).machine.state = some 0 :=
  fire_exit_raise_aborts_transition envC10 mC10 0 0 (some 1) (some 9)
    (Exc.userExc 3) rfl (by decide) (by decide) rfl

end Statmach
